import Mathlib

/-!
# gcs-resource: the generation-aware object access layer (`gcsclient.go`)

A shallow embedding of the methods of `gcsclient` and of the two collaborators they
drive: the storage service reached through `gcsclient.storageService`, and the local
file system reached through package `os` and `io.Copy`.

* The collaborators are a parameter: `Env σ` gives, for an arbitrary state type `σ`,
  the answer and the next state of every call the client makes.  Nothing is assumed
  about the answers, so every failure pattern is covered.
* The client threads a `St σ`: the collaborator state together with the trace of the
  calls made so far, in program order.
* `World` / `refEnv` is an executable in-memory instance (buckets, object versions,
  upload sessions, local files, permissions) on which the embedding is evaluated.

Go's `(value, error)` results are pairs whose second component is `Option Error`
(`none` is `nil`).  `int64` values are `Int`; the client never does arithmetic on them.
-/

namespace GcsResource

/-! ## Data -/

/-- One byte of file or object content. -/
abbrev Byte := Nat

/-- A Go `error` value, identified with its message. -/
abbrev Error := String

/-- The part of `storage.BucketAttrs` the client reads. -/
structure BucketAttrs where
  VersioningEnabled : Bool
deriving DecidableEq, Repr

/-- The part of `storage.ObjectAttrs` the client reads, with the fields the spec lists. -/
structure ObjectAttrs where
  Bucket : String
  Name : String
  Generation : Int
  ContentType : String
  Size : Int
deriving DecidableEq, Repr

/-- The fields of `storage.Query` the client sets. -/
structure Query where
  Delimiter : String
  Prefix : String
  Versions : Bool
deriving DecidableEq, Repr

/-- The field of `storage.ObjectAttrsToUpdate` the client sets. -/
structure ObjectAttrsToUpdate where
  ContentType : String
deriving DecidableEq, Repr

/-- The value of `storageService.Bucket(bucket).Object(object)`; `gen` is `some g` once
`.Generation(g)` has been applied to it. -/
structure ObjectHandle where
  bucket : String
  object : String
  gen : Option Int
deriving DecidableEq, Repr

/-- The handle `storageService.Bucket(bucketName).Object(objectPath)`. -/
def ObjectHandle.mk0 (bucketName objectPath : String) : ObjectHandle :=
  { bucket := bucketName, object := objectPath, gen := none }

/-- The method `ObjectHandle.Generation`: the same object, pinned to one generation. -/
def ObjectHandle.Generation (h : ObjectHandle) (generation : Int) : ObjectHandle :=
  { h with gen := some generation }

/-- What is left of an `*storage.ObjectIterator`: the entries its next calls of `Next`
return, and how the enumeration ends after them (`none`: `iterator.Done`, `some e`: the
error `e`). -/
structure ObjectIterator where
  items : List ObjectAttrs
  err : Option Error
deriving DecidableEq, Repr

/-- What a `*storage.Reader` delivers: the bytes read from it before it ends, and how it
ends (`none`: `io.EOF`, `some e`: the read error `e`). -/
structure Reader where
  data : List Byte
  err : Option Error
deriving DecidableEq, Repr

/-- The calls the client makes, as recorded in the trace. -/
inductive Call where
  | bucketAttrs (bucket : String)
  | objects (bucket : String) (query : Query)
  | objectAttrs (h : ObjectHandle)
  | newReader (h : ObjectHandle)
  | readerClose (h : ObjectHandle)
  | newWriter (h : ObjectHandle)
  | writerWrite (h : ObjectHandle) (data : List Byte)
  | writerClose (h : ObjectHandle)
  | objectUpdate (h : ObjectHandle) (attrs : ObjectAttrsToUpdate)
  | objectDelete (h : ObjectHandle)
  | osCreate (path : String)
  | osStat (path : String)
  | osOpen (path : String)
  | fileRead (path : String)
  | fileWrite (path : String) (data : List Byte)
  | fileClose (path : String)
  | progressStart (total : Int)
  | progressFinish
  | println (msg : String)
deriving DecidableEq, Repr

/-- The collaborators of the client.  Each field is one call: it takes the current
collaborator state and the call's arguments and gives the answer and the next state.

* storage service: `bucketAttrs` is `Bucket(b).Attrs`, `objects` is `Bucket(b).Objects`
  (the whole enumeration the query produces), `objectAttrs` is `ObjectHandle.Attrs`,
  `newReader`/`readerClose` open and close a `storage.Reader`, `newWriter`,
  `writerWrite`, `writerClose` are `ObjectHandle.NewWriter`, `Writer.Write` and
  `Writer.Close`, `objectUpdate` is `ObjectHandle.Update`, `objectDelete` is
  `ObjectHandle.Delete`;
* local files (a file handle is identified with its path): `osCreate`, `osStat`
  (answers the size), `osOpen`, `fileRead` (the bytes read up to the end of the file or
  up to a read error), `fileWrite`, `fileClose`. -/
structure Env (σ : Type) where
  bucketAttrs : σ → String → Except Error BucketAttrs × σ
  objects : σ → String → Query → ObjectIterator × σ
  objectAttrs : σ → ObjectHandle → Except Error ObjectAttrs × σ
  newReader : σ → ObjectHandle → Except Error Reader × σ
  readerClose : σ → ObjectHandle → σ
  newWriter : σ → ObjectHandle → σ
  writerWrite : σ → ObjectHandle → List Byte → Option Error × σ
  writerClose : σ → ObjectHandle → Option Error × σ
  objectUpdate : σ → ObjectHandle → ObjectAttrsToUpdate → Except Error ObjectAttrs × σ
  objectDelete : σ → ObjectHandle → Option Error × σ
  osCreate : σ → String → Option Error × σ
  osStat : σ → String → Except Error Int × σ
  osOpen : σ → String → Option Error × σ
  fileRead : σ → String → (List Byte × Option Error) × σ
  fileWrite : σ → String → List Byte → Option Error × σ
  fileClose : σ → String → σ

/-- The state a client method runs in: the collaborators' state and the calls made so
far, oldest first. -/
structure St (σ : Type) where
  env : σ
  trace : List Call

/-- Record call `c`, which left the collaborators in state `s`. -/
def St.log {σ : Type} (st : St σ) (c : Call) (s : σ) : St σ :=
  { env := s, trace := st.trace ++ [c] }

/-- The error value `errors.New("bucket is not versioned")`. -/
def errNotVersioned : Error := "bucket is not versioned"

/-! ## The client (`gcsclient.go`) -/

section Client

variable {σ : Type}

/-- Method `getBucketVersioning` (lines 383-391). -/
def getBucketVersioning (E : Env σ) (st : St σ) (bucketName : String) :
    (Bool × Option Error) × St σ :=
  match E.bucketAttrs st.env bucketName with
  | (.error err, s) => ((false, some err), st.log (.bucketAttrs bucketName) s)
  | (.ok bucket, s) => ((bucket.VersioningEnabled, none), st.log (.bucketAttrs bucketName) s)

/-- The loop of `getBucketObjects` (lines 369-378) over what the iterator still holds:
`Next` returns the entries one by one, then `iterator.Done` (leave the loop) or an error
(`return nil, err`). -/
def getBucketObjectsLoop (err : Option Error) :
    List ObjectAttrs → List String → List String × Option Error
  | [], bucketObjects =>
    match err with
    | none => (bucketObjects, none)
    | some e => ([], some e)
  | object :: rest, bucketObjects =>
    getBucketObjectsLoop err rest (bucketObjects ++ [object.Name])

/-- Method `getBucketObjects` (lines 360-381). -/
def getBucketObjects (E : Env σ) (st : St σ) (bucketName : String) (pfx : String) :
    (List String × Option Error) × St σ :=
  let pageToken := ""
  let query : Query := { Delimiter := pageToken, Prefix := pfx, Versions := false }
  match E.objects st.env bucketName query with
  | (objectIterator, s) =>
    (getBucketObjectsLoop objectIterator.err objectIterator.items [],
      st.log (.objects bucketName query) s)

/-- Method `BucketObjects` (lines 69-76). -/
def BucketObjects (E : Env σ) (st : St σ) (bucketName : String) (pfx : String) :
    (List String × Option Error) × St σ :=
  match getBucketObjects E st bucketName pfx with
  | ((_, some err), st1) => (([], some err), st1)
  | ((bucketObjects, none), st1) => ((bucketObjects, none), st1)

/-- The loop of `getObjectGenerations` (lines 432-445); `objectIterator.PageInfo()` only
reads the iterator. -/
def getObjectGenerationsLoop (objectPath : String) (err : Option Error) :
    List ObjectAttrs → List Int → List Int × Option Error
  | [], objectGenerations =>
    match err with
    | none => (objectGenerations, none)
    | some e => ([], some e)
  | object :: rest, objectGenerations =>
    if object.Name = objectPath then
      getObjectGenerationsLoop objectPath err rest (objectGenerations ++ [object.Generation])
    else
      getObjectGenerationsLoop objectPath err rest objectGenerations

/-- Method `getObjectGenerations` (lines 423-448). -/
def getObjectGenerations (E : Env σ) (st : St σ) (bucketName : String)
    (objectPath : String) : (List Int × Option Error) × St σ :=
  let pageToken := ""
  let query : Query := { Delimiter := pageToken, Prefix := objectPath, Versions := true }
  match E.objects st.env bucketName query with
  | (objectIterator, s) =>
    (getObjectGenerationsLoop objectPath objectIterator.err objectIterator.items [],
      st.log (.objects bucketName query) s)

/-- Method `ObjectGenerations` (lines 78-94). -/
def ObjectGenerations (E : Env σ) (st : St σ) (bucketName : String)
    (objectPath : String) : (List Int × Option Error) × St σ :=
  match getBucketVersioning E st bucketName with
  | ((_, some err), st1) => (([], some err), st1)
  | ((isBucketVersioned, none), st1) =>
    if isBucketVersioned = false then
      (([], some errNotVersioned), st1)
    else
      match getObjectGenerations E st1 bucketName objectPath with
      | ((_, some err), st2) => (([], some err), st2)
      | ((objectGenerations, none), st2) => ((objectGenerations, none), st2)

/-- The call `io.Copy(localFile, rc)` of `DownloadFile` (line 159): what the reader
delivers is written to the local file; a write error ends the copy, otherwise the copy
ends as the reader ends. -/
def ioCopyToFile (E : Env σ) (st : St σ) (localPath : String) (rc : Reader) :
    Option Error × St σ :=
  if rc.data = [] then (rc.err, st)
  else
    match E.fileWrite st.env localPath rc.data with
    | (some err, s) => (some err, st.log (.fileWrite localPath rc.data) s)
    | (none, s) => (rc.err, st.log (.fileWrite localPath rc.data) s)

/-- Method `DownloadFile` (lines 96-165).  The deferred `rc.Close()` and
`localFile.Close()` run, last registered first, on every return after their `defer`. -/
def DownloadFile (E : Env σ) (st : St σ) (bucketName : String) (objectPath : String)
    (generation : Int) (localPath : String) : Option Error × St σ :=
  match getBucketVersioning E st bucketName with
  | ((_, some err), st1) => (some err, st1)
  | ((isBucketVersioned, none), st1) =>
    if isBucketVersioned = false ∧ generation ≠ 0 then
      (some errNotVersioned, st1)
    else
      match E.osCreate st1.env localPath with
      | (some err, s2) => (some err, st1.log (.osCreate localPath) s2)
      | (none, s2) =>
        let st2 := st1.log (.osCreate localPath) s2
        let objectHandle := ObjectHandle.mk0 bucketName objectPath
        let objectHandle :=
          if generation ≠ 0 then objectHandle.Generation generation else objectHandle
        match E.newReader st2.env objectHandle with
        | (.error err, s3) =>
          let st3 := st2.log (.newReader objectHandle) s3
          (some err, st3.log (.fileClose localPath) (E.fileClose st3.env localPath))
        | (.ok rc, s3) =>
          let st3 := st2.log (.newReader objectHandle) s3
          match ioCopyToFile E st3 localPath rc with
          | (err, st4) =>
            let st5 := st4.log (.readerClose objectHandle) (E.readerClose st4.env objectHandle)
            (err, st5.log (.fileClose localPath) (E.fileClose st5.env localPath))

/-- Method `GetBucketObjectInfo` (lines 314-330): `.error err` is the result `nil, err`,
`.ok attrs` is the result `attrs, nil`. -/
def GetBucketObjectInfo (E : Env σ) (st : St σ) (bucketName objectPath : String) :
    Except Error ObjectAttrs × St σ :=
  let h := ObjectHandle.mk0 bucketName objectPath
  match E.objectAttrs st.env h with
  | (.error err, s) => (.error err, st.log (.objectAttrs h) s)
  | (.ok attrs, s) => (.ok attrs, st.log (.objectAttrs h) s)

/-- The call `io.Copy(wc, localFile)` of `UploadFile` (line 190): what is read from the
local file is written to the upload stream; a write error ends the copy, otherwise the
copy ends as the reading ends. -/
def ioCopyToWriter (E : Env σ) (st : St σ) (wc : ObjectHandle) (localPath : String) :
    Option Error × St σ :=
  match E.fileRead st.env localPath with
  | ((data, rerr), s1) =>
    let st1 := st.log (.fileRead localPath) s1
    if data = [] then (rerr, st1)
    else
      match E.writerWrite st1.env wc data with
      | (some err, s2) => (some err, st1.log (.writerWrite wc data) s2)
      | (none, s2) => (rerr, st1.log (.writerWrite wc data) s2)

/-- The deferred calls of `UploadFile`, run on every return after line 186:
`progress.Finish()`, then `localFile.Close()`. -/
def uploadDeferred (E : Env σ) (st : St σ) (localPath : String) : St σ :=
  let st1 := st.log .progressFinish st.env
  st1.log (.fileClose localPath) (E.fileClose st1.env localPath)

/-- Lines 198-207 of `UploadFile`: the two placeholders print a line and change nothing
on the service. -/
def uploadPlaceholders (st : St σ) (predefinedACL cacheControl : String) : St σ :=
  let st1 := if predefinedACL ≠ "" then st.log (.println "set a predefined acl") st.env else st
  if cacheControl ≠ "" then st1.log (.println "set cache control") st1.env else st1

/-- Lines 258-265 of `UploadFile`: the result once the object is written. -/
def uploadResult (E : Env σ) (st : St σ) (isBucketVersioned : Bool)
    (bucketName objectPath localPath : String) : (Int × Option Error) × St σ :=
  if isBucketVersioned then
    match GetBucketObjectInfo E st bucketName objectPath with
    | (.error err, st1) => ((0, some err), uploadDeferred E st1 localPath)
    | (.ok attrs, st1) => ((attrs.Generation, none), uploadDeferred E st1 localPath)
  else
    ((0, none), uploadDeferred E st localPath)

/-- Lines 198-266 of `UploadFile`, run once the upload stream is closed: the two
placeholders, the content-type update when a content type is given, and the result. -/
def uploadFinish (E : Env σ) (st : St σ) (isBucketVersioned : Bool)
    (bucketName objectPath objectContentType localPath predefinedACL cacheControl : String) :
    (Int × Option Error) × St σ :=
  let st8 := uploadPlaceholders st predefinedACL cacheControl
  if objectContentType ≠ "" then
    let h := ObjectHandle.mk0 bucketName objectPath
    let attrs : ObjectAttrsToUpdate := { ContentType := objectContentType }
    match E.objectUpdate st8.env h attrs with
    | (.error _, s9) =>
      ((0, none), uploadDeferred E (st8.log (.objectUpdate h attrs) s9) localPath)
    | (.ok _, s9) =>
      uploadResult E (st8.log (.objectUpdate h attrs) s9) isBucketVersioned
        bucketName objectPath localPath
  else
    uploadResult E st8 isBucketVersioned bucketName objectPath localPath

/-- Method `UploadFile` (lines 167-266). -/
def UploadFile (E : Env σ) (st : St σ) (bucketName : String) (objectPath : String)
    (objectContentType : String) (localPath : String) (predefinedACL : String)
    (cacheControl : String) : (Int × Option Error) × St σ :=
  match getBucketVersioning E st bucketName with
  | ((_, some err), st1) => ((0, some err), st1)
  | ((isBucketVersioned, none), st1) =>
    match E.osStat st1.env localPath with
    | (.error err, s2) => ((0, some err), st1.log (.osStat localPath) s2)
    | (.ok statSize, s2) =>
      let st2 := st1.log (.osStat localPath) s2
      match E.osOpen st2.env localPath with
      | (some err, s3) => ((0, some err), st2.log (.osOpen localPath) s3)
      | (none, s3) =>
        let st3 := st2.log (.osOpen localPath) s3
        let st4 := st3.log (.progressStart statSize) st3.env
        let wc := ObjectHandle.mk0 bucketName objectPath
        let st5 := st4.log (.newWriter wc) (E.newWriter st4.env wc)
        match ioCopyToWriter E st5 wc localPath with
        | (some err, st6) => ((0, some err), uploadDeferred E st6 localPath)
        | (none, st6) =>
          match E.writerClose st6.env wc with
          | (some err, s7) =>
            ((0, some err), uploadDeferred E (st6.log (.writerClose wc) s7) localPath)
          | (none, s7) =>
            uploadFinish E (st6.log (.writerClose wc) s7) isBucketVersioned bucketName
              objectPath objectContentType localPath predefinedACL cacheControl

/-- Method `URL` (lines 268-287); `toString` on `Int` is the rendering of `%d`. -/
def URL (E : Env σ) (st : St σ) (bucketName : String) (objectPath : String)
    (generation : Int) : (String × Option Error) × St σ :=
  let objectHandle := ObjectHandle.mk0 bucketName objectPath
  let objectHandle :=
    if generation ≠ 0 then objectHandle.Generation generation else objectHandle
  match E.objectAttrs st.env objectHandle with
  | (.error err, s) => (("", some err), st.log (.objectAttrs objectHandle) s)
  | (.ok attrs, s) =>
    let url :=
      if generation ≠ 0 then
        "gs://" ++ bucketName ++ "/" ++ objectPath ++ "#" ++ toString attrs.Generation
      else
        "gs://" ++ bucketName ++ "/" ++ objectPath
    ((url, none), st.log (.objectAttrs objectHandle) s)

/-- Method `DeleteObject` (lines 289-312). -/
def DeleteObject (E : Env σ) (st : St σ) (bucketName : String) (objectPath : String)
    (generation : Int) : Option Error × St σ :=
  let h :=
    if generation ≠ 0 then (ObjectHandle.mk0 bucketName objectPath).Generation generation
    else ObjectHandle.mk0 bucketName objectPath
  match E.objectDelete st.env h with
  | (some err, s) => (some err, st.log (.objectDelete h) s)
  | (none, s) => (none, st.log (.objectDelete h) s)

end Client

/-! ## An in-memory storage service and file system

The two collaborators are outside the repository.  `World` is an executable instance of
the calls listed in `Env`, with the behaviour the specification attributes to the
service: a write replaces the object, or adds a generation when the bucket is versioned;
a handle designates the live version, or the version of the generation it is pinned to;
a listing returns the versions under a prefix, the live ones only unless all versions
are asked for.  A call fails when its permission is denied or its target is missing. -/

/-- The permissions of the service the client's calls need (`storage.buckets.get`,
`storage.objects.list`, `.get`, `.create`, `.update`, `.delete`). -/
inductive Permission where
  | bucketsGet
  | objectsList
  | objectsGet
  | objectsCreate
  | objectsUpdate
  | objectsDelete
deriving DecidableEq, Repr

/-- One stored version of an object; `live` marks the current version of its name. -/
structure ObjectVersion where
  bucket : String
  name : String
  generation : Int
  content : List Byte
  contentType : String
  live : Bool
deriving DecidableEq, Repr

/-- An entry of the local file system. -/
inductive Node where
  | file (data : List Byte)
  | dir
deriving DecidableEq, Repr

/-- The service and the local machine: the buckets with their versioning flag, every
stored object version in enumeration order, the generation the next write gets, the
open upload sessions with the bytes streamed so far, the local files (the first entry
for a path counts), and the permissions the credentials lack. -/
structure World where
  buckets : List (String × Bool)
  objects : List ObjectVersion
  nextGeneration : Int
  uploads : List (ObjectHandle × List Byte)
  files : List (String × Node)
  denied : List Permission
deriving DecidableEq, Repr

/-- The answer of the service to a call the credentials do not permit. -/
def errForbidden : Error := "googleapi: Error 403: forbidden"

/-- The value `storage.ErrBucketNotExist`. -/
def errBucketNotExist : Error := "storage: bucket doesn't exist"

/-- The value `storage.ErrObjectNotExist`. -/
def errObjectNotExist : Error := "storage: object doesn't exist"

/-- The error of a read or a create on a directory. -/
def errIsDirectory : Error := "is a directory"

/-- The error of `os.Stat` and `os.Open` on a missing path. -/
def errNoSuchFile : Error := "no such file or directory"

/-- The error of a call on a handle that is not open. -/
def errClosed : Error := "file already closed"

/-- Whether `name` starts with `pfx`. -/
def hasPrefix (pfx name : String) : Bool :=
  pfx.data.isPrefixOf name.data

/-- The attributes the service reports for a stored version. -/
def ObjectVersion.attrs (o : ObjectVersion) : ObjectAttrs :=
  { Bucket := o.bucket, Name := o.name, Generation := o.generation,
    ContentType := o.contentType, Size := o.content.length }

/-- Whether version `o` is the one handle `h` designates: the live version of the name,
or, for a pinned handle, the version with that generation. -/
def ObjectVersion.designatedBy (o : ObjectVersion) (h : ObjectHandle) : Bool :=
  o.bucket == h.bucket && o.name == h.object &&
    (match h.gen with
     | none => o.live
     | some g => o.generation == g)

namespace World

/-- The version a handle designates, if it is stored. -/
def find (w : World) (h : ObjectHandle) : Option ObjectVersion :=
  w.objects.find? (fun o => o.designatedBy h)

/-- The attributes of a bucket: its versioning flag. -/
def bucketAttrs (w : World) (b : String) : Except Error BucketAttrs × World :=
  if Permission.bucketsGet ∈ w.denied then (.error errForbidden, w)
  else
    match w.buckets.lookup b with
    | none => (.error errBucketNotExist, w)
    | some v => (.ok { VersioningEnabled := v }, w)

/-- The listing: the stored versions of the bucket whose name starts with the query's
prefix, all of them when `Versions` is set and the live ones otherwise. -/
def listObjects (w : World) (b : String) (q : Query) : ObjectIterator × World :=
  if Permission.objectsList ∈ w.denied then ({ items := [], err := some errForbidden }, w)
  else
    match w.buckets.lookup b with
    | none => ({ items := [], err := some errBucketNotExist }, w)
    | some _ =>
      ({ items := (w.objects.filter (fun o =>
            o.bucket == b && hasPrefix q.Prefix o.name && (q.Versions || o.live))).map
            ObjectVersion.attrs,
         err := none }, w)

/-- The attributes of the version the handle designates. -/
def objectAttrs (w : World) (h : ObjectHandle) : Except Error ObjectAttrs × World :=
  if Permission.objectsGet ∈ w.denied then (.error errForbidden, w)
  else
    match w.find h with
    | none => (.error errObjectNotExist, w)
    | some o => (.ok o.attrs, w)

/-- A reader over the content of the version the handle designates. -/
def newReader (w : World) (h : ObjectHandle) : Except Error Reader × World :=
  if Permission.objectsGet ∈ w.denied then (.error errForbidden, w)
  else
    match w.find h with
    | none => (.error errObjectNotExist, w)
    | some o => (.ok { data := o.content, err := none }, w)

/-- Closing a reader changes nothing. -/
def readerClose (w : World) (_h : ObjectHandle) : World := w

/-- A new upload session for the handle, with nothing streamed yet. -/
def newWriter (w : World) (h : ObjectHandle) : World :=
  { w with uploads := (h, []) :: w.uploads.filter (fun u => u.1 != h) }

/-- Bytes written to an open upload session are added to it. -/
def writerWrite (w : World) (h : ObjectHandle) (data : List Byte) : Option Error × World :=
  match w.uploads.lookup h with
  | none => (some errClosed, w)
  | some buf =>
    (none, { w with uploads := (h, buf ++ data) :: w.uploads.filter (fun u => u.1 != h) })

/-- The stored versions after a write of `data` to `(b, p)`: the former live version is
kept as a historical one when the bucket is versioned and replaced otherwise. -/
def commit (w : World) (versioned : Bool) (b p : String) (data : List Byte) :
    List ObjectVersion :=
  (if versioned then
      w.objects.map (fun o => if o.bucket == b && o.name == p then { o with live := false } else o)
    else
      w.objects.filter (fun o => !(o.bucket == b && o.name == p && o.live))) ++
    [{ bucket := b, name := p, generation := w.nextGeneration, content := data,
       contentType := "", live := true }]

/-- The close of an upload session ends it; the object is written when the credentials
may create objects and the bucket exists. -/
def writerClose (w : World) (h : ObjectHandle) : Option Error × World :=
  match w.uploads.lookup h with
  | none => (some errClosed, w)
  | some buf =>
    let w1 := { w with uploads := w.uploads.filter (fun u => u.1 != h) }
    if Permission.objectsCreate ∈ w.denied then (some errForbidden, w1)
    else
      match w.buckets.lookup h.bucket with
      | none => (some errBucketNotExist, w1)
      | some versioned =>
        (none, { w1 with objects := w.commit versioned h.bucket h.object buf,
                         nextGeneration := w.nextGeneration + 1 })

/-- The content type of the designated version is replaced; its generation and content
stay. -/
def objectUpdate (w : World) (h : ObjectHandle) (u : ObjectAttrsToUpdate) :
    Except Error ObjectAttrs × World :=
  if Permission.objectsUpdate ∈ w.denied then (.error errForbidden, w)
  else
    match w.find h with
    | none => (.error errObjectNotExist, w)
    | some o =>
      let o1 := { o with contentType := u.ContentType }
      (.ok o1.attrs, { w with objects := w.objects.map (fun x => if x = o then o1 else x) })

/-- A pinned delete removes that version; an unpinned delete of a versioned bucket keeps
the live version as a historical one, and removes it otherwise. -/
def objectDelete (w : World) (h : ObjectHandle) : Option Error × World :=
  if Permission.objectsDelete ∈ w.denied then (some errForbidden, w)
  else
    match w.find h with
    | none => (some errObjectNotExist, w)
    | some o =>
      if h.gen = none ∧ w.buckets.lookup h.bucket = some true then
        (none, { w with objects := w.objects.map (fun x => if x = o then { o with live := false } else x) })
      else
        (none, { w with objects := w.objects.filter (fun x => x != o) })

/-- The call `os.Create`: the path becomes an empty file, unless it is a directory. -/
def osCreate (w : World) (path : String) : Option Error × World :=
  match w.files.lookup path with
  | some Node.dir => (some errIsDirectory, w)
  | _ => (none, { w with files := (path, Node.file []) :: w.files })

/-- The call `os.Stat`, answering the size. -/
def osStat (w : World) (path : String) : Except Error Int × World :=
  match w.files.lookup path with
  | none => (.error errNoSuchFile, w)
  | some (Node.file data) => (.ok data.length, w)
  | some Node.dir => (.ok 4096, w)

/-- The call `os.Open`: any existing path, a directory included, can be opened. -/
def osOpen (w : World) (path : String) : Option Error × World :=
  match w.files.lookup path with
  | none => (some errNoSuchFile, w)
  | some _ => (none, w)

/-- Reading an open path to its end: the content of a file, an error on a directory. -/
def fileRead (w : World) (path : String) : (List Byte × Option Error) × World :=
  match w.files.lookup path with
  | none => (([], some errClosed), w)
  | some (Node.file data) => ((data, none), w)
  | some Node.dir => (([], some errIsDirectory), w)

/-- Writing to an open file appends to its content. -/
def fileWrite (w : World) (path : String) (data : List Byte) : Option Error × World :=
  match w.files.lookup path with
  | some (Node.file old) => (none, { w with files := (path, Node.file (old ++ data)) :: w.files })
  | _ => (some errClosed, w)

/-- Closing a file changes nothing. -/
def fileClose (w : World) (_path : String) : World := w

end World

/-- The in-memory collaborators as an `Env`. -/
def refEnv : Env World where
  bucketAttrs := World.bucketAttrs
  objects := World.listObjects
  objectAttrs := World.objectAttrs
  newReader := World.newReader
  readerClose := World.readerClose
  newWriter := World.newWriter
  writerWrite := World.writerWrite
  writerClose := World.writerClose
  objectUpdate := World.objectUpdate
  objectDelete := World.objectDelete
  osCreate := World.osCreate
  osStat := World.osStat
  osOpen := World.osOpen
  fileRead := World.fileRead
  fileWrite := World.fileWrite
  fileClose := World.fileClose

/-- The in-memory collaborators with the convention of the storage library for the
generation of a handle, in which a negative value stands for the latest version: the
attribute lookup of a handle pinned to a negative generation answers the live version. -/
def latestEnv : Env World :=
  { refEnv with
    objectAttrs := fun w h =>
      match h.gen with
      | none => World.objectAttrs w h
      | some g =>
        if g < 0 then World.objectAttrs w { h with gen := none } else World.objectAttrs w h }

/-- A client state over the in-memory collaborators with an empty trace. -/
def start (w : World) : St World :=
  { env := w, trace := [] }

/-! ## Example states -/

/-- A service with the unversioned bucket `demo` and the versioned bucket `demo-v`, a
few stored versions, and a local machine with a two-byte file, an empty file and a
directory. -/
def exampleWorld : World :=
  { buckets := [("demo", false), ("demo-v", true)],
    objects :=
      [ { bucket := "demo", name := "f.txt", generation := 77, content := [104, 105],
          contentType := "", live := true },
        { bucket := "demo-v", name := "a/b.txt", generation := 5, content := [1],
          contentType := "", live := false },
        { bucket := "demo-v", name := "a/b.txt.bak", generation := 7, content := [2],
          contentType := "", live := true },
        { bucket := "demo-v", name := "a/b.txt", generation := 9, content := [3],
          contentType := "", live := true } ],
    nextGeneration := 1001,
    uploads := [],
    files := [("/tmp/src", Node.file [104, 105]), ("/tmp/empty", Node.file []),
      ("/tmp/dir", Node.dir)],
    denied := [] }

/-- The same, with credentials that may create and read objects but not update them. -/
def exampleWorldNoUpdate : World :=
  { exampleWorld with denied := [Permission.objectsUpdate] }

/-! ## Versioning preconditions -/

section Generic

variable {σ : Type}

/-- C1. On a bucket whose attributes report versioning disabled, `DownloadFile` with a
generation other than 0 returns the error "bucket is not versioned", and the read of the
bucket attributes is the only call it makes: the trace grows by that one call (no reader
is opened, no local file is created) and the collaborators are left as that read left
them. -/
theorem DownloadFile_not_versioned (E : Env σ) (st : St σ) (s1 : σ)
    (bucketName objectPath localPath : String) (generation : Int)
    (hattrs : E.bucketAttrs st.env bucketName = (.ok { VersioningEnabled := false }, s1))
    (hgen : generation ≠ 0) :
    DownloadFile E st bucketName objectPath generation localPath =
      (some "bucket is not versioned",
        { env := s1, trace := st.trace ++ [Call.bucketAttrs bucketName] }) := by
  simp [DownloadFile, getBucketVersioning, hattrs, hgen, St.log, errNotVersioned]

/-- C1 at the unversioned bucket `demo` with generation 42: the in-memory service and
the local files are left exactly as they were. -/
theorem DownloadFile_not_versioned_witness :
    refEnv.bucketAttrs (start exampleWorld).env "demo" =
        (.ok { VersioningEnabled := false }, exampleWorld) ∧
      (42 : Int) ≠ 0 ∧
      DownloadFile refEnv (start exampleWorld) "demo" "f.txt" 42 "/tmp/dst" =
        (some "bucket is not versioned",
          { env := exampleWorld, trace := [] ++ [Call.bucketAttrs "demo"] }) :=
  ⟨rfl, by decide,
    DownloadFile_not_versioned refEnv (start exampleWorld) exampleWorld "demo" "f.txt"
      "/tmp/dst" 42 rfl (by decide)⟩

/-- C2 as stated fails.  The bucket `demo` is not versioned, yet `DeleteObject` with
generation 77 issues the pinned delete, the object is removed, and the result is `nil`
rather than the not-versioned error. -/
theorem DeleteObject_unversioned_counterexample :
    refEnv.bucketAttrs exampleWorld "demo" =
        (.ok { VersioningEnabled := false }, exampleWorld) ∧
      (DeleteObject refEnv (start exampleWorld) "demo" "f.txt" 77).1 = none ∧
      (DeleteObject refEnv (start exampleWorld) "demo" "f.txt" 77).2.trace =
        [Call.objectDelete { bucket := "demo", object := "f.txt", gen := some 77 }] ∧
      (DeleteObject refEnv (start exampleWorld) "demo" "f.txt" 77).2.env.find
        (ObjectHandle.mk0 "demo" "f.txt") = none :=
  ⟨rfl, by decide, by decide, by decide⟩

/-- C2, amended.  For a generation other than 0, `DeleteObject` reads no bucket
attributes: its one call is the delete of the object pinned to that generation, and it
returns what that call answers (`nil` or the error of the service), whatever the
versioning of the bucket. -/
theorem DeleteObject_pinned_passes_through (E : Env σ) (st : St σ)
    (bucketName objectPath : String) (generation : Int) (hgen : generation ≠ 0) :
    DeleteObject E st bucketName objectPath generation =
      ((E.objectDelete st.env
          { bucket := bucketName, object := objectPath, gen := some generation }).1,
        { env := (E.objectDelete st.env
            { bucket := bucketName, object := objectPath, gen := some generation }).2,
          trace := st.trace ++
            [Call.objectDelete
              { bucket := bucketName, object := objectPath, gen := some generation }] }) := by
  simp only [DeleteObject, hgen, ObjectHandle.mk0, ObjectHandle.Generation, St.log]
  rcases h : E.objectDelete st.env
      { bucket := bucketName, object := objectPath, gen := some generation } with ⟨r, s⟩
  cases r <;> simp [hgen, h]

/-- C2, amended, at a generation the unversioned bucket `demo` does not hold: the delete
is issued all the same and the error is the one the service answers. -/
theorem DeleteObject_pinned_passes_through_witness :
    (42 : Int) ≠ 0 ∧
      DeleteObject refEnv (start exampleWorld) "demo" "f.txt" 42 =
        (some "storage: object doesn't exist",
          { env := exampleWorld,
            trace := [] ++
              [Call.objectDelete { bucket := "demo", object := "f.txt", gen := some 42 }] }) :=
  ⟨by decide,
    DeleteObject_pinned_passes_through refEnv (start exampleWorld) "demo" "f.txt" 42
      (by decide)⟩

/-- C6. On a bucket whose attributes report versioning disabled, `ObjectGenerations`
returns the empty list with the error "bucket is not versioned"; the read of the bucket
attributes is its only call, so the listing is never issued. -/
theorem ObjectGenerations_not_versioned (E : Env σ) (st : St σ) (s1 : σ)
    (bucketName objectPath : String)
    (hattrs : E.bucketAttrs st.env bucketName = (.ok { VersioningEnabled := false }, s1)) :
    ObjectGenerations E st bucketName objectPath =
      (([], some "bucket is not versioned"),
        { env := s1, trace := st.trace ++ [Call.bucketAttrs bucketName] }) := by
  simp [ObjectGenerations, getBucketVersioning, hattrs, St.log, errNotVersioned]

/-- C6 at the unversioned bucket `demo`. -/
theorem ObjectGenerations_not_versioned_witness :
    refEnv.bucketAttrs (start exampleWorld).env "demo" =
        (.ok { VersioningEnabled := false }, exampleWorld) ∧
      ObjectGenerations refEnv (start exampleWorld) "demo" "f.txt" =
        (([], some "bucket is not versioned"),
          { env := exampleWorld, trace := [] ++ [Call.bucketAttrs "demo"] }) :=
  ⟨rfl, ObjectGenerations_not_versioned refEnv (start exampleWorld) exampleWorld "demo"
    "f.txt" rfl⟩

/-! ## Listings -/

/-- The loop of `getObjectGenerations` over an enumeration that ends without error
appends the generations of the entries named `objectPath`, in order. -/
theorem getObjectGenerationsLoop_done (objectPath : String) (entries : List ObjectAttrs)
    (acc : List Int) :
    getObjectGenerationsLoop objectPath none entries acc =
      (acc ++ (entries.filter (fun o => decide (o.Name = objectPath))).map
        (fun o => o.Generation), none) := by
  induction entries generalizing acc with
  | nil => simp [getObjectGenerationsLoop]
  | cons o rest ih =>
    by_cases h : o.Name = objectPath
    · simp [getObjectGenerationsLoop, h, ih]
    · simp [getObjectGenerationsLoop, h, ih]

/-- The loop of `getBucketObjects` over an enumeration that ends without error appends
the name of every entry, in order. -/
theorem getBucketObjectsLoop_done (entries : List ObjectAttrs) (acc : List String) :
    getBucketObjectsLoop none entries acc = (acc ++ entries.map (fun o => o.Name), none) := by
  induction entries generalizing acc with
  | nil => simp [getBucketObjectsLoop]
  | cons o rest ih => simp [getBucketObjectsLoop, ih]

/-- A path followed by a non-empty suffix is another name. -/
theorem append_suffix_ne (objectPath suffix : String) (h : suffix ≠ "") :
    objectPath ++ suffix ≠ objectPath := by
  intro h2
  apply h
  have h3 := congrArg String.data h2
  simp at h3
  exact String.ext (by simpa using h3)

/-- C5. When the all-versions listing for the prefix `objectPath` enumerates `entries`
and ends without error, `getObjectGenerations` returns the `Generation` of exactly the
entries whose `Name` equals `objectPath`, in enumeration order and with multiplicity.
An entry named `objectPath ++ suffix` with a non-empty suffix contributes nothing: the
result is the one obtained without that entry. -/
theorem getObjectGenerations_exact_name (E : Env σ) (st : St σ) (s1 : σ)
    (bucketName objectPath : String) (entries : List ObjectAttrs)
    (hlist : E.objects st.env bucketName
        { Delimiter := "", Prefix := objectPath, Versions := true } =
      ({ items := entries, err := none }, s1)) :
    (getObjectGenerations E st bucketName objectPath).1 =
        ((entries.filter (fun o => decide (o.Name = objectPath))).map
          (fun o => o.Generation), none) ∧
      ∀ (before after : List ObjectAttrs) (o : ObjectAttrs) (suffix : String),
        entries = before ++ o :: after → o.Name = objectPath ++ suffix → suffix ≠ "" →
        (getObjectGenerations E st bucketName objectPath).1 =
          (((before ++ after).filter (fun o => decide (o.Name = objectPath))).map
            (fun o => o.Generation), none) := by
  have hres : (getObjectGenerations E st bucketName objectPath).1 =
      ((entries.filter (fun o => decide (o.Name = objectPath))).map
        (fun o => o.Generation), none) := by
    simp [getObjectGenerations, hlist, getObjectGenerationsLoop_done]
  refine ⟨hres, ?_⟩
  intro before after o suffix hsplit hname hsuffix
  have hne : o.Name ≠ objectPath := by
    rw [hname]
    exact append_suffix_ne objectPath suffix hsuffix
  rw [hres, hsplit]
  simp [List.filter_cons, hne]

/-- C5 on the versioned bucket `demo-v`, which holds generations 5 and 9 of `a/b.txt`
and, between them in enumeration order, generation 7 of `a/b.txt.bak`: the result is
`[5, 9]`, the one obtained from the enumeration without the `.bak` entry. -/
theorem getObjectGenerations_exact_name_witness :
    refEnv.objects (start exampleWorld).env "demo-v"
        { Delimiter := "", Prefix := "a/b.txt", Versions := true } =
      ({ items :=
          [ { Bucket := "demo-v", Name := "a/b.txt", Generation := 5, ContentType := "",
              Size := 1 },
            { Bucket := "demo-v", Name := "a/b.txt.bak", Generation := 7,
              ContentType := "", Size := 1 },
            { Bucket := "demo-v", Name := "a/b.txt", Generation := 9, ContentType := "",
              Size := 1 } ],
          err := none }, exampleWorld) ∧
      (getObjectGenerations refEnv (start exampleWorld) "demo-v" "a/b.txt").1 =
        ([5, 9], none) ∧
      (getObjectGenerations refEnv (start exampleWorld) "demo-v" "a/b.txt").1 =
        ((List.filter (fun o : ObjectAttrs => decide (o.Name = "a/b.txt"))
            ([ { Bucket := "demo-v", Name := "a/b.txt", Generation := 5, ContentType := "",
                 Size := 1 } ] ++
             [ { Bucket := "demo-v", Name := "a/b.txt", Generation := 9, ContentType := "",
                 Size := 1 } ])).map (fun o => o.Generation), none) :=
  have h := getObjectGenerations_exact_name refEnv (start exampleWorld) exampleWorld "demo-v"
    "a/b.txt"
    [ { Bucket := "demo-v", Name := "a/b.txt", Generation := 5, ContentType := "",
        Size := 1 },
      { Bucket := "demo-v", Name := "a/b.txt.bak", Generation := 7, ContentType := "",
        Size := 1 },
      { Bucket := "demo-v", Name := "a/b.txt", Generation := 9, ContentType := "",
        Size := 1 } ]
    (by decide)
  ⟨by decide, h.1.trans (by decide),
    h.2 _ _ { Bucket := "demo-v", Name := "a/b.txt.bak", Generation := 7, ContentType := "",
              Size := 1 } ".bak" rfl (by decide) (by decide)⟩

/-- C8. `BucketObjects` makes one call, the listing of the bucket with
`Prefix = pfx`, `Versions = false` and an empty delimiter.  When the enumeration ends
without error the result is the `Name` of every enumerated entry, in enumeration order.
Hence, when every enumerated name starts with `pfx`, so does every returned name, and
when the enumeration holds one entry per name, every returned name occurs once. -/
theorem BucketObjects_names_in_order (E : Env σ) (st : St σ) (s1 : σ)
    (bucketName pfx : String) (it : ObjectIterator)
    (hlist : E.objects st.env bucketName
        { Delimiter := "", Prefix := pfx, Versions := false } = (it, s1)) :
    (BucketObjects E st bucketName pfx).2 =
        { env := s1,
          trace := st.trace ++
            [Call.objects bucketName { Delimiter := "", Prefix := pfx, Versions := false }] } ∧
      (it.err = none →
        (BucketObjects E st bucketName pfx).1 = (it.items.map (fun o => o.Name), none) ∧
        ((∀ o ∈ it.items, ∃ rest, o.Name = pfx ++ rest) →
          ∀ n ∈ (BucketObjects E st bucketName pfx).1.1, ∃ rest, n = pfx ++ rest) ∧
        ((it.items.map (fun o => o.Name)).Nodup →
          ∀ n ∈ (BucketObjects E st bucketName pfx).1.1,
            List.count n (BucketObjects E st bucketName pfx).1.1 = 1)) := by
  have hget : getBucketObjects E st bucketName pfx =
      (getBucketObjectsLoop it.err it.items [],
        { env := s1,
          trace := st.trace ++
            [Call.objects bucketName { Delimiter := "", Prefix := pfx, Versions := false }] }) := by
    simp [getBucketObjects, hlist, St.log]
  constructor
  · unfold BucketObjects
    rw [hget]
    rcases getBucketObjectsLoop it.err it.items [] with ⟨names, _ | e⟩ <;> rfl
  · intro herr
    have hres : (BucketObjects E st bucketName pfx).1 =
        (it.items.map (fun o => o.Name), none) := by
      unfold BucketObjects
      rw [hget, herr, getBucketObjectsLoop_done]
      simp
    refine ⟨hres, ?_, ?_⟩
    · intro hpfx n hn
      rw [hres] at hn
      obtain ⟨o, ho, rfl⟩ := List.mem_map.mp hn
      exact hpfx o ho
    · intro hnodup n hn
      rw [hres] at hn ⊢
      exact List.count_eq_one_of_mem hnodup hn

/-- C8 on the versioned bucket `demo-v` with prefix `a/`: `a/b.txt` has a historical and
a live version and is returned once. -/
theorem BucketObjects_names_in_order_witness :
    refEnv.objects (start exampleWorld).env "demo-v"
        { Delimiter := "", Prefix := "a/", Versions := false } =
      ({ items :=
          [ { Bucket := "demo-v", Name := "a/b.txt.bak", Generation := 7,
              ContentType := "", Size := 1 },
            { Bucket := "demo-v", Name := "a/b.txt", Generation := 9, ContentType := "",
              Size := 1 } ],
          err := none }, exampleWorld) ∧
      (BucketObjects refEnv (start exampleWorld) "demo-v" "a/").2.trace =
        [Call.objects "demo-v" { Delimiter := "", Prefix := "a/", Versions := false }] ∧
      (BucketObjects refEnv (start exampleWorld) "demo-v" "a/").1 =
        (["a/b.txt.bak", "a/b.txt"], none) ∧
      (∀ n ∈ (BucketObjects refEnv (start exampleWorld) "demo-v" "a/").1.1,
        ∃ rest, n = "a/" ++ rest) ∧
      (∀ n ∈ (BucketObjects refEnv (start exampleWorld) "demo-v" "a/").1.1,
        List.count n (BucketObjects refEnv (start exampleWorld) "demo-v" "a/").1.1 = 1) :=
  have h := BucketObjects_names_in_order refEnv (start exampleWorld) exampleWorld "demo-v"
    "a/" _ (by decide : refEnv.objects (start exampleWorld).env "demo-v"
        { Delimiter := "", Prefix := "a/", Versions := false } =
      ({ items :=
          [ { Bucket := "demo-v", Name := "a/b.txt.bak", Generation := 7,
              ContentType := "", Size := 1 },
            { Bucket := "demo-v", Name := "a/b.txt", Generation := 9, ContentType := "",
              Size := 1 } ],
          err := none }, exampleWorld))
  ⟨by decide, congrArg St.trace h.1, (h.2 rfl).1,
    (h.2 rfl).2.1 (by
      intro o ho
      simp only [List.mem_cons, List.mem_singleton, List.not_mem_nil, or_false] at ho
      rcases ho with rfl | rfl
      · exact ⟨"b.txt.bak", rfl⟩
      · exact ⟨"b.txt", rfl⟩),
    (h.2 rfl).2.2 (by decide)⟩

/-! ## Locators -/

/-- C7 as stated fails.  On a service that takes a negative generation for the latest
version, the lookup of `demo/f.txt` pinned to generation -1 succeeds and answers the live
version, of generation 77; `URL` renders the generation of that answer and returns
`gs://demo/f.txt#77`, not `gs://demo/f.txt#-1`. -/
theorem URL_negative_generation_counterexample :
    latestEnv.objectAttrs (start exampleWorld).env
        { bucket := "demo", object := "f.txt", gen := some (-1) } =
      (.ok { Bucket := "demo", Name := "f.txt", Generation := 77, ContentType := "",
             Size := 2 }, exampleWorld) ∧
      (-1 : Int) ≠ 0 ∧
      (URL latestEnv (start exampleWorld) "demo" "f.txt" (-1)).1 =
        ("gs://demo/f.txt#77", none) ∧
      (URL latestEnv (start exampleWorld) "demo" "f.txt" (-1)).1 ≠
        ("gs://" ++ "demo" ++ "/" ++ "f.txt" ++ "#" ++ toString (-1 : Int), none) :=
  ⟨rfl, by decide, by decide, by decide⟩

/-- C7, amended.  When the attribute lookup succeeds with attributes `attrs`, `URL`
returns `gs://bucket/path` for generation 0 and, for a generation other than 0,
`gs://bucket/path#n` where `n` is `attrs.Generation` in base 10: the generation the
lookup reported, not the argument.  The lookup is its only call. -/
theorem URL_renders_reported_generation (E : Env σ) (st : St σ) (s1 : σ)
    (bucketName objectPath : String) (generation : Int) (attrs : ObjectAttrs)
    (hlookup : E.objectAttrs st.env
        (if generation ≠ 0 then
          { bucket := bucketName, object := objectPath, gen := some generation }
        else { bucket := bucketName, object := objectPath, gen := none }) = (.ok attrs, s1)) :
    URL E st bucketName objectPath generation =
      ((if generation = 0 then "gs://" ++ bucketName ++ "/" ++ objectPath
          else "gs://" ++ bucketName ++ "/" ++ objectPath ++ "#" ++ toString attrs.Generation,
        none),
       { env := s1,
         trace := st.trace ++
           [Call.objectAttrs
             (if generation ≠ 0 then
               { bucket := bucketName, object := objectPath, gen := some generation }
             else { bucket := bucketName, object := objectPath, gen := none })] }) := by
  by_cases hgen : generation = 0
  · subst hgen
    simp only [ne_eq, not_true_eq_false, if_false] at hlookup
    simp [URL, ObjectHandle.mk0, hlookup, St.log]
  · simp only [ne_eq, hgen, not_false_eq_true, if_true] at hlookup
    simp [URL, ObjectHandle.mk0, ObjectHandle.Generation, hgen, hlookup, St.log]

/-- C7, amended, on `demo/f.txt`, whose stored generation is 77: pinned to 77 the URL is
`gs://demo/f.txt#77`, unpinned it is `gs://demo/f.txt`. -/
theorem URL_renders_reported_generation_witness :
    refEnv.objectAttrs (start exampleWorld).env
        { bucket := "demo", object := "f.txt", gen := some 77 } =
      (.ok { Bucket := "demo", Name := "f.txt", Generation := 77, ContentType := "",
             Size := 2 }, exampleWorld) ∧
      (URL refEnv (start exampleWorld) "demo" "f.txt" 77).1 = ("gs://demo/f.txt#77", none) ∧
      (URL refEnv (start exampleWorld) "demo" "f.txt" 0).1 = ("gs://demo/f.txt", none) :=
  ⟨rfl,
    (congrArg Prod.fst
      (URL_renders_reported_generation refEnv (start exampleWorld) exampleWorld "demo" "f.txt"
        77
        { Bucket := "demo", Name := "f.txt", Generation := 77, ContentType := "", Size := 2 }
        rfl)).trans (by decide),
    (congrArg Prod.fst
      (URL_renders_reported_generation refEnv (start exampleWorld) exampleWorld "demo" "f.txt"
        0
        { Bucket := "demo", Name := "f.txt", Generation := 77, ContentType := "", Size := 2 }
        rfl)).trans (by decide)⟩

end Generic

/-- In the in-memory service, the attributes answered for a handle pinned to a generation
carry that generation. -/
theorem World.objectAttrs_pinned (w w1 : World) (b p : String) (g : Int)
    (attrs : ObjectAttrs)
    (h : w.objectAttrs { bucket := b, object := p, gen := some g } = (.ok attrs, w1)) :
    attrs.Generation = g := by
  unfold World.objectAttrs at h
  by_cases hd : Permission.objectsGet ∈ w.denied
  · simp [hd] at h
  · simp only [hd, if_false] at h
    cases hf : w.find { bucket := b, object := p, gen := some g } with
    | none => simp [hf] at h
    | some o =>
      simp only [hf, Prod.mk.injEq, Except.ok.injEq] at h
      have hdes := List.find?_some hf
      simp only [ObjectVersion.designatedBy, Bool.and_eq_true, beq_iff_eq] at hdes
      rw [← h.1]
      exact hdes.2

/-- On the in-memory service, where a pinned lookup answers the generation asked for,
the number `URL` renders for a generation other than 0 is its argument. -/
theorem URL_format_ref (w w1 : World) (b p : String) (g : Int) (attrs : ObjectAttrs)
    (hlookup : refEnv.objectAttrs w
        (if g ≠ 0 then { bucket := b, object := p, gen := some g }
        else { bucket := b, object := p, gen := none }) = (.ok attrs, w1)) :
    (URL refEnv (start w) b p g).1 =
      (if g = 0 then "gs://" ++ b ++ "/" ++ p
        else "gs://" ++ b ++ "/" ++ p ++ "#" ++ toString g, none) := by
  by_cases hg : g = 0
  · subst hg
    simp only [ne_eq, not_true_eq_false, if_false] at hlookup
    have hl : refEnv.objectAttrs (start w).env (ObjectHandle.mk0 b p) = (.ok attrs, w1) :=
      hlookup
    simp [URL, hl]
  · simp only [ne_eq, hg, not_false_eq_true, if_true] at hlookup
    have hpin := World.objectAttrs_pinned w w1 b p g attrs hlookup
    have hl : refEnv.objectAttrs (start w).env
        ((ObjectHandle.mk0 b p).Generation g) = (.ok attrs, w1) := hlookup
    simp [URL, hg, hl, hpin]

/-! ## Upload and download on the in-memory service -/

/-- In the in-memory service, the version a write creates is the one the unpinned handle
designates afterwards. -/
theorem World.find_commit (w : World) (versioned : Bool) (b p : String) (data : List Byte) :
    (w.commit versioned b p data).find? (fun o => o.designatedBy (ObjectHandle.mk0 b p)) =
      some { bucket := b, name := p, generation := w.nextGeneration, content := data,
             contentType := "", live := true } := by
  unfold World.commit
  rw [List.find?_append]
  have hnone : List.find? (fun o => o.designatedBy (ObjectHandle.mk0 b p))
      (if versioned then
        w.objects.map (fun o => if o.bucket == b && o.name == p then { o with live := false } else o)
      else
        w.objects.filter (fun o => !(o.bucket == b && o.name == p && o.live))) = none := by
    rw [List.find?_eq_none]
    intro x hx
    cases versioned
    · simp only [Bool.false_eq_true, if_false, List.mem_filter] at hx
      simp only [ObjectVersion.designatedBy, ObjectHandle.mk0]
      have h2 := hx.2
      simp at h2 ⊢
      intro h3 h4
      rcases h2 with (h5 | h5) | h5
      · exact absurd h3 h5
      · exact absurd h4 h5
      · exact h5
    · simp only [if_true, List.mem_map] at hx
      obtain ⟨y, _, rfl⟩ := hx
      by_cases hy : (y.bucket == b && y.name == p) = true
      · simp [hy, ObjectVersion.designatedBy, ObjectHandle.mk0]
      · simp only [hy, if_false]
        simp only [ObjectVersion.designatedBy, ObjectHandle.mk0]
        simp at hy ⊢
        intro h1 h2
        exact absurd h2 (hy h1)
  rw [hnone]
  simp [ObjectVersion.designatedBy, ObjectHandle.mk0]

/-- The placeholders of `UploadFile` leave the collaborators as they are. -/
theorem uploadPlaceholders_env {σ : Type} (st : St σ) (acl cc : String) :
    (uploadPlaceholders st acl cc).env = st.env := by
  unfold uploadPlaceholders
  by_cases h1 : acl = "" <;> by_cases h2 : cc = "" <;> simp [h1, h2, St.log]

/-- In the in-memory service, the deferred calls of `UploadFile` change nothing. -/
theorem uploadDeferred_env (st : St World) (src : String) :
    (uploadDeferred refEnv st src).env = st.env := by
  simp [uploadDeferred, St.log, refEnv, World.fileClose]

/-- In the in-memory service, an update of the content type keeps the designated
version designated and keeps its content. -/
theorem World.find_update (w : World) (h : ObjectHandle) (o : ObjectVersion) (ct : String)
    (hfind : w.find h = some o) :
    List.find? (fun x => x.designatedBy h)
        (w.objects.map (fun x => if x = o then { o with contentType := ct } else x)) =
      some { o with contentType := ct } := by
  unfold World.find at hfind
  rw [List.find?_map]
  have hcomp : ((fun x : ObjectVersion => x.designatedBy h) ∘
      (fun x => if x = o then { o with contentType := ct } else x)) =
      (fun x => x.designatedBy h) := by
    funext x
    by_cases hx : x = o
    · subst hx
      simp [ObjectVersion.designatedBy]
    · simp [hx]
  rw [hcomp, hfind]
  simp

/-- In the in-memory service with the object stored and readable, lines 258-265 return
the generation of the live version for a versioned bucket and 0 otherwise. -/
theorem uploadResult_ref (st : St World) (versioned : Bool) (b p src : String)
    (o : ObjectVersion) (hperm : st.env.denied = [])
    (hfind : st.env.find (ObjectHandle.mk0 b p) = some o) :
    (uploadResult refEnv st versioned b p src).1 =
        (if versioned then o.generation else 0, none) ∧
      (uploadResult refEnv st versioned b p src).2.env = st.env := by
  cases versioned
  · simp [uploadResult, uploadDeferred_env]
  · simp [uploadResult, GetBucketObjectInfo, refEnv, World.objectAttrs, hperm, hfind,
      St.log, uploadDeferred, World.fileClose, ObjectVersion.attrs]

/-- In the in-memory service with every permission granted and the object written, lines
198-266 succeed, return the generation of the live version for a versioned bucket and 0
otherwise, and leave a live version with the same generation and content. -/
theorem uploadFinish_ref (st : St World) (versioned : Bool) (b p ct src acl cc : String)
    (o : ObjectVersion) (hperm : st.env.denied = [])
    (hfind : st.env.find (ObjectHandle.mk0 b p) = some o) :
    (uploadFinish refEnv st versioned b p ct src acl cc).1 =
        (if versioned then o.generation else 0, none) ∧
      (uploadFinish refEnv st versioned b p ct src acl cc).2.env.denied = [] ∧
      (uploadFinish refEnv st versioned b p ct src acl cc).2.env.buckets = st.env.buckets ∧
      (uploadFinish refEnv st versioned b p ct src acl cc).2.env.files = st.env.files ∧
      ∃ o1, (uploadFinish refEnv st versioned b p ct src acl cc).2.env.find
          (ObjectHandle.mk0 b p) = some o1 ∧ o1.content = o.content ∧
          o1.generation = o.generation := by
  by_cases hct : ct = ""
  · have h8 := uploadPlaceholders_env st acl cc
    have hr := uploadResult_ref (uploadPlaceholders st acl cc) versioned b p src o
      (by rw [h8]; exact hperm) (by rw [h8]; exact hfind)
    simp only [uploadFinish, hct, ne_eq, not_true_eq_false, if_false]
    rw [hr.1, hr.2, h8]
    exact ⟨rfl, hperm, rfl, rfl, o, hfind, rfl, rfl⟩
  · have h8 := uploadPlaceholders_env st acl cc
    have hupd : refEnv.objectUpdate (uploadPlaceholders st acl cc).env (ObjectHandle.mk0 b p)
        { ContentType := ct } =
        (.ok ({ o with contentType := ct } : ObjectVersion).attrs,
          { st.env with objects :=
              st.env.objects.map (fun x => if x = o then { o with contentType := ct } else x) }) := by
      rw [h8]
      simp [refEnv, World.objectUpdate, hperm, hfind]
    simp only [uploadFinish, hct, ne_eq, not_false_eq_true, if_true, hupd]
    have hr := uploadResult_ref
      ((uploadPlaceholders st acl cc).log
        (Call.objectUpdate (ObjectHandle.mk0 b p) { ContentType := ct })
        { st.env with objects :=
              st.env.objects.map (fun x => if x = o then { o with contentType := ct } else x) })
      versioned b p src { o with contentType := ct } hperm
      (World.find_update st.env (ObjectHandle.mk0 b p) o ct hfind)
    rw [hr.1, hr.2]
    exact ⟨rfl, hperm, rfl, rfl, { o with contentType := ct },
      World.find_update st.env (ObjectHandle.mk0 b p) o ct hfind, rfl, rfl⟩

/-- In the in-memory service, `io.Copy` of a readable local file into a fresh upload session
succeeds and the session holds the content of the file. -/
theorem World.copy_to_writer (w : World) (b p src : String) (data : List Byte)
    (tr : List Call)
    (hsrc : w.files.lookup src = some (Node.file data)) :
    ioCopyToWriter refEnv { env := w.newWriter (ObjectHandle.mk0 b p), trace := tr }
        (ObjectHandle.mk0 b p) src =
      (none,
        { env := { w with uploads := (ObjectHandle.mk0 b p, data) ::
            w.uploads.filter (fun u => u.1 != ObjectHandle.mk0 b p) },
          trace := tr ++ Call.fileRead src ::
            (if data = [] then [] else [Call.writerWrite (ObjectHandle.mk0 b p) data]) }) := by
  by_cases hd : data = []
  · subst hd
    simp [ioCopyToWriter, refEnv, World.fileRead, World.newWriter, hsrc, St.log]
  · simp [ioCopyToWriter, refEnv, World.fileRead, World.newWriter, hsrc, St.log, hd,
      World.writerWrite, List.lookup, List.filter_cons]

/-- In the in-memory service with every permission granted, `UploadFile` of a readable
local file into an existing bucket succeeds; it returns 0 for an unversioned bucket and,
for a versioned one, the generation of the live version it leaves, whose content is that
of the file. -/
theorem UploadFile_ref (w : World) (tr : List Call) (b p ct src acl cc : String)
    (data : List Byte) (versioned : Bool)
    (hperm : w.denied = [])
    (hbucket : w.buckets.lookup b = some versioned)
    (hsrc : w.files.lookup src = some (Node.file data)) :
    (UploadFile refEnv { env := w, trace := tr } b p ct src acl cc).1.2 = none ∧
    (UploadFile refEnv { env := w, trace := tr } b p ct src acl cc).2.env.denied = [] ∧
    (UploadFile refEnv { env := w, trace := tr } b p ct src acl cc).2.env.buckets = w.buckets ∧
    (UploadFile refEnv { env := w, trace := tr } b p ct src acl cc).2.env.files = w.files ∧
    ∃ o, (UploadFile refEnv { env := w, trace := tr } b p ct src acl cc).2.env.find
        (ObjectHandle.mk0 b p) = some o ∧ o.content = data ∧
        (UploadFile refEnv { env := w, trace := tr } b p ct src acl cc).1.1 =
          if versioned then o.generation else 0 := by
  have hattrs : refEnv.bucketAttrs w b = (.ok { VersioningEnabled := versioned }, w) := by
    simp [refEnv, World.bucketAttrs, hperm, hbucket]
  have hstat : refEnv.osStat w src = (.ok data.length, w) := by
    simp [refEnv, World.osStat, hsrc]
  have hopen : refEnv.osOpen w src = (none, w) := by
    simp [refEnv, World.osOpen, hsrc]
  have hnew : refEnv.newWriter w (ObjectHandle.mk0 b p) = w.newWriter (ObjectHandle.mk0 b p) := rfl
  have hclose : ∀ ups, refEnv.writerClose
      { w with uploads := (ObjectHandle.mk0 b p, data) :: ups } (ObjectHandle.mk0 b p) =
      (none, { w with uploads := ups.filter (fun u => u.1 != ObjectHandle.mk0 b p),
                      objects := w.commit versioned b p data,
                      nextGeneration := w.nextGeneration + 1 }) := by
    intro ups
    simp [refEnv, World.writerClose, List.lookup, hperm, hbucket, ObjectHandle.mk0,
      List.filter_cons, World.commit]
  simp only [UploadFile, getBucketVersioning, hattrs, St.log, hstat, hopen, hnew,
    World.copy_to_writer w b p src data _ hsrc, hclose]
  obtain ⟨h1, h2, h3, h4, o1, h5, h6, h7⟩ := uploadFinish_ref
    (St.mk
      (World.mk w.buckets (w.commit versioned b p data) (w.nextGeneration + 1)
        (List.filter (fun u => u.1 != ObjectHandle.mk0 b p)
          (List.filter (fun u => u.1 != ObjectHandle.mk0 b p) w.uploads))
        w.files w.denied)
      (tr ++ [Call.bucketAttrs b] ++ [Call.osStat src] ++ [Call.osOpen src] ++
        [Call.progressStart data.length] ++ [Call.newWriter (ObjectHandle.mk0 b p)] ++
        Call.fileRead src ::
          (if data = [] then [] else [Call.writerWrite (ObjectHandle.mk0 b p) data]) ++
        [Call.writerClose (ObjectHandle.mk0 b p)]))
    versioned b p ct src acl cc
    (ObjectVersion.mk b p w.nextGeneration data "" true)
    hperm (World.find_commit w versioned b p data)
  refine ⟨by rw [h1], h2, h3, h4, o1, h5, h6, ?_⟩
  rw [h1, h7]

/-- In the in-memory service with every permission granted, an unpinned `DownloadFile` of a
stored object into a path that is not a directory succeeds and leaves the content of the
live version in the local file. -/
theorem DownloadFile_ref (st : St World) (b p dst : String) (versioned : Bool)
    (o : ObjectVersion)
    (hperm : st.env.denied = [])
    (hbucket : st.env.buckets.lookup b = some versioned)
    (hfind : st.env.find (ObjectHandle.mk0 b p) = some o)
    (hdst : st.env.files.lookup dst ≠ some Node.dir) :
    (DownloadFile refEnv st b p 0 dst).1 = none ∧
      (DownloadFile refEnv st b p 0 dst).2.env.files.lookup dst = some (Node.file o.content) := by
  have hattrs : refEnv.bucketAttrs st.env b = (.ok { VersioningEnabled := versioned }, st.env) := by
    simp [refEnv, World.bucketAttrs, hperm, hbucket]
  have hcreate : refEnv.osCreate st.env dst =
      (none, { st.env with files := (dst, Node.file []) :: st.env.files }) := by
    cases hl : st.env.files.lookup dst with
    | none => simp [refEnv, World.osCreate, hl]
    | some n =>
      cases n with
      | file d => simp [refEnv, World.osCreate, hl]
      | dir => exact absurd hl hdst
  have hreader : refEnv.newReader { st.env with files := (dst, Node.file []) :: st.env.files }
      (ObjectHandle.mk0 b p) =
      (.ok { data := o.content, err := none },
        { st.env with files := (dst, Node.file []) :: st.env.files }) := by
    have hf : List.find? (fun x => x.designatedBy (ObjectHandle.mk0 b p)) st.env.objects =
        some o := hfind
    simp [refEnv, World.newReader, World.find, hperm, hf]
  simp only [DownloadFile, getBucketVersioning, hattrs, St.log, ne_eq, not_true_eq_false,
    and_false, if_false, hcreate, hreader]
  by_cases hd : o.content = []
  · simp [ioCopyToFile, hd, refEnv, World.readerClose, World.fileClose, St.log, List.lookup]
  · simp [ioCopyToFile, hd, refEnv, World.readerClose, World.fileClose, St.log, List.lookup,
      World.fileWrite]

/-- C9. In the in-memory service with every permission granted (no call fails), whether the
bucket is versioned or not: `UploadFile` of a local file holding `data` (empty or not)
succeeds, the `DownloadFile` of the same object with generation 0 that follows succeeds,
and the destination then holds exactly `data`. -/
theorem upload_then_download_roundtrip (w : World)
    (bucketName objectPath objectContentType src predefinedACL cacheControl dst : String)
    (data : List Byte) (versioned : Bool)
    (hperm : w.denied = [])
    (hbucket : w.buckets.lookup bucketName = some versioned)
    (hsrc : w.files.lookup src = some (Node.file data))
    (hdst : w.files.lookup dst ≠ some Node.dir) :
    (UploadFile refEnv (start w) bucketName objectPath objectContentType src predefinedACL
        cacheControl).1.2 = none ∧
      (DownloadFile refEnv
        (UploadFile refEnv (start w) bucketName objectPath objectContentType src
          predefinedACL cacheControl).2 bucketName objectPath 0 dst).1 = none ∧
      (DownloadFile refEnv
        (UploadFile refEnv (start w) bucketName objectPath objectContentType src
          predefinedACL cacheControl).2 bucketName objectPath 0 dst).2.env.files.lookup dst =
        some (Node.file data) := by
  obtain ⟨hup, hden, hbk, hfiles, o, hfind, hcontent, _⟩ :=
    UploadFile_ref w [] bucketName objectPath objectContentType src predefinedACL
      cacheControl data versioned hperm hbucket hsrc
  have hdown := DownloadFile_ref
    (UploadFile refEnv (start w) bucketName objectPath objectContentType src predefinedACL
      cacheControl).2 bucketName objectPath dst versioned o hden
    (by rw [show (UploadFile refEnv (start w) bucketName objectPath objectContentType src
      predefinedACL cacheControl).2.env.buckets = w.buckets from hbk]; exact hbucket) hfind
    (by rw [show (UploadFile refEnv (start w) bucketName objectPath objectContentType src
      predefinedACL cacheControl).2.env.files = w.files from hfiles]; exact hdst)
  rw [hcontent] at hdown
  exact ⟨hup, hdown.1, hdown.2⟩

/-- C9 on the example state: the two bytes of `/tmp/src` through the unversioned bucket
`demo`, and the empty file `/tmp/empty` through the versioned bucket `demo-v` with a
content type. -/
theorem upload_then_download_roundtrip_witness :
    (exampleWorld.denied = [] ∧
      exampleWorld.buckets.lookup "demo" = some false ∧
      exampleWorld.files.lookup "/tmp/src" = some (Node.file [104, 105]) ∧
      exampleWorld.files.lookup "/tmp/dst" ≠ some Node.dir) ∧
    ((UploadFile refEnv (start exampleWorld) "demo" "g.txt" "" "/tmp/src" "" "").1.2 = none ∧
      (DownloadFile refEnv
        (UploadFile refEnv (start exampleWorld) "demo" "g.txt" "" "/tmp/src" "" "").2
        "demo" "g.txt" 0 "/tmp/dst").1 = none ∧
      (DownloadFile refEnv
        (UploadFile refEnv (start exampleWorld) "demo" "g.txt" "" "/tmp/src" "" "").2
        "demo" "g.txt" 0 "/tmp/dst").2.env.files.lookup "/tmp/dst" =
        some (Node.file [104, 105])) ∧
    ((UploadFile refEnv (start exampleWorld) "demo-v" "g.txt" "text/plain" "/tmp/empty" ""
        "").1.2 = none ∧
      (DownloadFile refEnv
        (UploadFile refEnv (start exampleWorld) "demo-v" "g.txt" "text/plain" "/tmp/empty" ""
          "").2 "demo-v" "g.txt" 0 "/tmp/dst").1 = none ∧
      (DownloadFile refEnv
        (UploadFile refEnv (start exampleWorld) "demo-v" "g.txt" "text/plain" "/tmp/empty" ""
          "").2 "demo-v" "g.txt" 0 "/tmp/dst").2.env.files.lookup "/tmp/dst" =
        some (Node.file [])) :=
  ⟨⟨rfl, by decide, by decide, by decide⟩,
    upload_then_download_roundtrip exampleWorld "demo" "g.txt" "" "/tmp/src" "" "" "/tmp/dst"
      [104, 105] false rfl (by decide) (by decide) (by decide),
    upload_then_download_roundtrip exampleWorld "demo-v" "g.txt" "text/plain" "/tmp/empty" ""
      "" "/tmp/dst" [] true rfl (by decide) (by decide) (by decide)⟩

/-! ## The result of an upload -/

/-- In the in-memory service, `GetBucketObjectInfo` of a stored object that may be read
reports the attributes of its live version. -/
theorem GetBucketObjectInfo_ref (st : St World) (b p : String) (o : ObjectVersion)
    (hperm : st.env.denied = [])
    (hfind : st.env.find (ObjectHandle.mk0 b p) = some o) :
    (GetBucketObjectInfo refEnv st b p).1 = .ok o.attrs := by
  simp [GetBucketObjectInfo, refEnv, World.objectAttrs, hperm, hfind]

/-- When no call fails (in-memory service, every permission granted, existing bucket,
readable file), the number `UploadFile` returns is 0 for an unversioned bucket and, for a
versioned one, the `Generation` that `GetBucketObjectInfo` reports on the state the
upload leaves. -/
theorem UploadFile_generation_ref (w : World) (b p ct src acl cc : String)
    (data : List Byte) (versioned : Bool)
    (hperm : w.denied = [])
    (hbucket : w.buckets.lookup b = some versioned)
    (hsrc : w.files.lookup src = some (Node.file data)) :
    ∃ attrs,
      (GetBucketObjectInfo refEnv (UploadFile refEnv (start w) b p ct src acl cc).2 b p).1 =
        .ok attrs ∧
      (UploadFile refEnv (start w) b p ct src acl cc).1 =
        (if versioned then attrs.Generation else 0, none) := by
  obtain ⟨hup, hden, _, _, o, hfind, _, hval⟩ :=
    UploadFile_ref w [] b p ct src acl cc data versioned hperm hbucket hsrc
  refine ⟨o.attrs, GetBucketObjectInfo_ref _ b p o hden hfind, ?_⟩
  exact Prod.ext hval hup

/-- For any collaborators: once the upload stream is closed, a failing content-type
update makes lines 208-229 return `0, nil`, whatever the error and the versioning. -/
theorem uploadFinish_update_error {σ : Type} (E : Env σ) (st : St σ) (s9 : σ)
    (isBucketVersioned : Bool)
    (bucketName objectPath objectContentType localPath predefinedACL cacheControl : String)
    (err : Error) (hct : objectContentType ≠ "")
    (hupdate : E.objectUpdate (uploadPlaceholders st predefinedACL cacheControl).env
        (ObjectHandle.mk0 bucketName objectPath) { ContentType := objectContentType } =
      (.error err, s9)) :
    (uploadFinish E st isBucketVersioned bucketName objectPath objectContentType localPath
      predefinedACL cacheControl).1 = (0, none) := by
  simp [uploadFinish, hct, hupdate]

/-- C3 fails on the code.  With credentials that may not update objects, the copy and
the close of the upload stream succeed and the content-type update fails; `UploadFile`
returns `0, nil`.  The trace ends with the update followed by the deferred calls only,
the stored object has no content type, and the update is the call that is refused. -/
theorem UploadFile_update_failure_returns_nil :
    (UploadFile refEnv (start exampleWorldNoUpdate) "demo" "g.txt" "text/plain" "/tmp/src"
        "" "").1 = (0, none) ∧
      (UploadFile refEnv (start exampleWorldNoUpdate) "demo" "g.txt" "text/plain" "/tmp/src"
        "" "").2.trace =
        [ Call.bucketAttrs "demo", Call.osStat "/tmp/src", Call.osOpen "/tmp/src",
          Call.progressStart 2,
          Call.newWriter { bucket := "demo", object := "g.txt", gen := none },
          Call.fileRead "/tmp/src",
          Call.writerWrite { bucket := "demo", object := "g.txt", gen := none } [104, 105],
          Call.writerClose { bucket := "demo", object := "g.txt", gen := none },
          Call.objectUpdate { bucket := "demo", object := "g.txt", gen := none }
            { ContentType := "text/plain" },
          Call.progressFinish, Call.fileClose "/tmp/src" ] ∧
      (UploadFile refEnv (start exampleWorldNoUpdate) "demo" "g.txt" "text/plain" "/tmp/src"
        "" "").2.env.find { bucket := "demo", object := "g.txt", gen := none } =
        some { bucket := "demo", name := "g.txt", generation := 1001,
               content := [104, 105], contentType := "", live := true } ∧
      (refEnv.objectUpdate
        (UploadFile refEnv (start exampleWorldNoUpdate) "demo" "g.txt" "text/plain" "/tmp/src"
          "" "").2.env { bucket := "demo", object := "g.txt", gen := none }
        { ContentType := "text/plain" }).1 = .error "googleapi: Error 403: forbidden" :=
  ⟨by decide, by decide, by decide, rfl⟩

/-- C4 fails on the code, by the same return as C3.  On the versioned bucket `demo-v`,
with credentials that may not update objects, `UploadFile` with a content type returns
`0, nil`, while `GetBucketObjectInfo` on the state it leaves reports generation 1001. -/
theorem UploadFile_versioned_update_failure_returns_zero :
    refEnv.bucketAttrs exampleWorldNoUpdate "demo-v" =
        (.ok { VersioningEnabled := true }, exampleWorldNoUpdate) ∧
      (UploadFile refEnv (start exampleWorldNoUpdate) "demo-v" "g.txt" "text/plain"
        "/tmp/src" "" "").1 = (0, none) ∧
      (GetBucketObjectInfo refEnv
        (UploadFile refEnv (start exampleWorldNoUpdate) "demo-v" "g.txt" "text/plain"
          "/tmp/src" "" "").2 "demo-v" "g.txt").1 =
        .ok { Bucket := "demo-v", Name := "g.txt", Generation := 1001, ContentType := "",
              Size := 2 } :=
  ⟨rfl, by decide, rfl⟩

/-- C10 fails on the code.  The local path is a directory: it can be examined and opened,
and reading it fails, so `io.Copy` fails.  `UploadFile` returns that error after the
deferred calls only: the upload stream was opened, no close of it is in the trace, and
the upload session is still open on the service. -/
theorem UploadFile_copy_failure_leaves_writer_open :
    (UploadFile refEnv (start exampleWorld) "demo" "g.txt" "" "/tmp/dir" "" "").1 =
        (0, some "is a directory") ∧
      (UploadFile refEnv (start exampleWorld) "demo" "g.txt" "" "/tmp/dir" "" "").2.trace =
        [ Call.bucketAttrs "demo", Call.osStat "/tmp/dir", Call.osOpen "/tmp/dir",
          Call.progressStart 4096,
          Call.newWriter { bucket := "demo", object := "g.txt", gen := none },
          Call.fileRead "/tmp/dir", Call.progressFinish, Call.fileClose "/tmp/dir" ] ∧
      Call.writerClose { bucket := "demo", object := "g.txt", gen := none } ∉
        (UploadFile refEnv (start exampleWorld) "demo" "g.txt" "" "/tmp/dir" "" "").2.trace ∧
      (UploadFile refEnv (start exampleWorld) "demo" "g.txt" "" "/tmp/dir" "" "").2.env.uploads =
        [({ bucket := "demo", object := "g.txt", gen := none }, [])] :=
  ⟨by decide, by decide, by decide, by decide⟩

end GcsResource
